import Mathlib

/-!
Verification development for the ThreadScout scan pipeline.

The definitions below are shallow embeddings of the TypeScript source:
  * `src/server/services/validators.ts` (extractLinks, enforceOneLink,
    enforceAllowlist, ensureDisclosure),
  * `src/server/routes/scan.ts` (the per-candidate variant-B processing and
    the session finalization / persistence step),
  * `src/server/services/rulesCache.ts` together with
    `RedditClient.getSubredditRules` and `RedditClient.getThread`,
  * `src/server/services/agentClient.ts` (the response decoder and the mock
    fallback).

JS strings are modelled as Lean `String` / `List Char` (UTF-16 subtleties do
not arise on the inputs considered); JS numbers as `Int` for counters and
timestamps and as `Rat` for scores carried in JSON.
-/

namespace ThreadScout

/-! ### JS text primitives -/

/-- The character class `\s` of JS regexes (whitespace): ASCII whitespace
plus the Unicode space characters recognised by JS. -/
def isJsWs (c : Char) : Bool :=
  c == ' ' || c == '\t' || c == '\n' || c == '\r' ||
  c == '\x0b' || c == '\x0c' || c == ' ' || c == ' ' ||
  (0x2000 ≤ c.toNat && c.toNat ≤ 0x200a) ||
  c == ' ' || c == ' ' || c == ' ' || c == ' ' ||
  c == '　' || c == '﻿'

/-- Characters excluded from the body of a link by the URL regex of
`validators.ts` (the excluded set is `\s` together with the characters
`<`, `>`, `"`, `[`, `]`, `{`, `}`, `|`, `\`, `^` and backquote). -/
def isUrlExcluded (c : Char) : Bool :=
  isJsWs c || c == '<' || c == '>' || c == '"' || c == '[' || c == ']' ||
  c == '\x7b' || c == '\x7d' || c == '|' || c == '\\' || c == '^' ||
  c == '\x60'

def isLinkBodyChar (c : Char) : Bool := !(isUrlExcluded c)

/-- Match the scheme part `https?://` (case-insensitive, the `s` optional
and tried greedily) at the head of the character list. Returns the consumed
characters (in original case) and the remainder. -/
def schemeSplit (l : List Char) : Option (List Char × List Char) :=
  match l with
  | a :: b :: c :: d :: rest =>
    if a.toLower == 'h' && b.toLower == 't' && c.toLower == 't' && d.toLower == 'p' then
      match rest with
      | s :: x :: y :: r2 =>
        if s.toLower == 's' then
          match r2 with
          | z :: r3 =>
            if x == ':' && y == '/' && z == '/' then
              some ([a, b, c, d, s, x, y, z], r3)
            else none
          | [] => none
        else if s == ':' && x == '/' && y == '/' then
          some ([a, b, c, d, s, x, y], r2)
        else none
      | _ => none
    else none
  | _ => none

/-- The global regex scan of `text.match(urlRegex)` in `validators.ts`: at
each position try to match a link (scheme followed by a non-empty greedy run
of allowed characters); on success continue after the match, otherwise
advance one character. `fuel` bounds the recursion (each step consumes at
least one character). -/
def extractLinksAux : Nat → List Char → List (List Char)
  | 0, _ => []
  | _, [] => []
  | fuel + 1, c :: rest =>
    match schemeSplit (c :: rest) with
    | some (scheme, after) =>
      let body := after.takeWhile isLinkBodyChar
      if body.isEmpty then extractLinksAux fuel rest
      else (scheme ++ body) :: extractLinksAux fuel (after.drop body.length)
    | none => extractLinksAux fuel rest

def extractLinksL (l : List Char) : List (List Char) :=
  extractLinksAux (l.length + 1) l

/-- `extractLinks` from `validators.ts`. -/
def extractLinks (text : String) : List String :=
  (extractLinksL text.data).map List.asString

/-- JS `String.prototype.replace` with a string pattern: replaces the first
occurrence of `pat` (here always by the empty string); unchanged when `pat`
does not occur. -/
def replaceFirstL : List Char → List Char → List Char
  | [], _ => []
  | c :: rest, pat =>
    if pat.isPrefixOf (c :: rest) then (c :: rest).drop pat.length
    else c :: replaceFirstL rest pat

/-- JS `.replace(/\s+/g, ' ')`: every maximal run of whitespace becomes a
single space. The flag records whether the previous character was
whitespace. -/
def collapseWsAux : Bool → List Char → List Char
  | _, [] => []
  | prevWs, c :: rest =>
    if isJsWs c then
      if prevWs then collapseWsAux true rest
      else ' ' :: collapseWsAux true rest
    else c :: collapseWsAux false rest

def collapseWsL (l : List Char) : List Char := collapseWsAux false l

/-- JS `String.prototype.trim`. -/
def trimL (l : List Char) : List Char :=
  ((l.dropWhile isJsWs).reverse.dropWhile isJsWs).reverse

/-- JS `String.prototype.split` with a one-character separator; the
accumulator holds the current (reversed) segment. -/
def splitOnCharAux (sep : Char) : List Char → List Char → List (List Char)
  | [], acc => [acc.reverse]
  | c :: rest, acc =>
    if c == sep then acc.reverse :: splitOnCharAux sep rest []
    else splitOnCharAux sep rest (c :: acc)

def splitOnChar (sep : Char) (l : List Char) : List (List Char) :=
  splitOnCharAux sep l []

/-! ### `enforceOneLink` (`validators.ts` lines 14-42) -/

structure LinkValidationResult where
  ok : Bool
  cleaned : String
  count : Nat
deriving DecidableEq, Repr

/-- `enforceOneLink` from `src/server/services/validators.ts`: if at most one
link is found the input is returned unchanged with `ok = true`; otherwise the
first occurrence of each link after the first is removed by
`cleaned.replace(links[i], '')`, whitespace is collapsed and trimmed, and
`ok = false` is returned with the original count. -/
def enforceOneLink (text : String) : LinkValidationResult :=
  let links := extractLinksL text.data
  if links.length ≤ 1 then
    ⟨true, text, links.length⟩
  else
    let cleaned := links.tail.foldl (fun acc l => replaceFirstL acc l) text.data
    ⟨false, (trimL (collapseWsL cleaned)).asString, links.length⟩

/-! ### `enforceAllowlist` (`validators.ts` lines 50-97) -/

/-- Model of `new URL(link).hostname` for strings produced by
`extractLinks` (they always start with an `http(s)://` scheme): the
authority is the text up to the first `/`, `?` or `#`; userinfo up to the
last `@` is dropped; a `:port` suffix is dropped when the port is a valid
number (otherwise the URL constructor throws, modelled as `none`); the URL
constructor also throws on an empty host or a host containing characters
outside the conservative set modelled here. The WHATWG parser lowercases the
host. -/
def hostOfLink (link : List Char) : Option (List Char) :=
  match schemeSplit link with
  | none => none
  | some (_, rest) =>
    let auth := rest.takeWhile (fun c => !(c == '/' || c == '?' || c == '#'))
    let hostPort := if auth.contains '@' then (auth.reverse.takeWhile (· != '@')).reverse else auth
    let host := hostPort.takeWhile (· != ':')
    let port := hostPort.drop (host.length + 1)
    if host.isEmpty then none
    else if hostPort.contains ':' &&
        !(port.all (·.isDigit) && port.foldl (fun n c => n * 10 + (c.toNat - 48)) 0 ≤ 65535) then
      none
    else if host.all (fun c => c.isAlphanum || c == '.' || c == '-' || c == '_') then
      some (host.map Char.toLower)
    else none

/-- Strip a leading `www.` (the `.replace(/^www\./, '')` in
`validators.ts`). -/
def stripWww (d : List Char) : List Char :=
  if ['w', 'w', 'w', '.'].isPrefixOf d then d.drop 4 else d

/-- The allowlist membership test of `enforceAllowlist`: the normalized
domain equals a normalized allowlist entry or ends with `'.' + entry`. -/
def domainAllowed (allowlist : List String) (normalizedDomain : List Char) : Bool :=
  allowlist.any (fun a =>
    let na := stripWww (a.data.map Char.toLower)
    normalizedDomain == na || ('.' :: na).isSuffixOf normalizedDomain)

structure AllowlistValidationResult where
  ok : Bool
  cleaned : String
  violations : List String
deriving DecidableEq, Repr

/-- The per-link step of the loop in `enforceAllowlist`: an allowed link
leaves the state unchanged; a rejected link has its first occurrence removed
from the text and its (lowercased) host appended to `violations`; an
unparseable link is removed likewise with the raw link recorded. -/
def allowStep (allowlist : List String) (st : List Char × List String) (link : List Char) :
    List Char × List String :=
  match hostOfLink link with
  | some domain =>
    if domainAllowed allowlist (stripWww domain) then st
    else (replaceFirstL st.1 link, st.2 ++ [domain.asString])
  | none => (replaceFirstL st.1 link, st.2 ++ [link.asString])

/-- `enforceAllowlist` from `src/server/services/validators.ts`: an empty
allowlist allows everything and returns the input untouched; otherwise each
extracted link is checked against the allowlist, rejected links are removed
and recorded, and the final text is whitespace-collapsed and trimmed
unconditionally. -/
def enforceAllowlist (text : String) (allowlist : List String) : AllowlistValidationResult :=
  if allowlist.length = 0 then
    ⟨true, text, []⟩
  else
    let links := extractLinksL text.data
    let res := links.foldl (allowStep allowlist) (text.data, [])
    ⟨res.2.length = 0, (trimL (collapseWsL res.1)).asString, res.2⟩

/-! ### `ensureDisclosure` (`validators.ts` lines 99-118) -/

def toLowerL (l : List Char) : List Char := l.map Char.toLower

/-- JS `String.prototype.includes` (substring test). -/
def containsL : List Char → List Char → Bool
  | [], needle => needle.isEmpty
  | c :: rest, needle => needle.isPrefixOf (c :: rest) || containsL rest needle

/-- `ensureDisclosure` from `src/server/services/validators.ts`: a no-op if
the disclosure already appears (case-insensitively); otherwise the text is
trimmed, a `.` appended unless it already ends in `.`, `!` or `?`, and the
disclosure appended after a blank line. -/
def ensureDisclosure (text disclosure : String) : String :=
  if containsL (toLowerL text.data) (toLowerL disclosure.data) then text
  else
    let trimmed := trimL text.data
    let sep :=
      if !(trimmed.getLast? == some '.') && !(trimmed.getLast? == some '!') &&
          !(trimmed.getLast? == some '?') then ['.'] else []
    (trimmed ++ sep ++ ['\n', '\n'] ++ disclosure.data).asString

/-! ### Data model (`redditClient.ts`, `schemas/thread.ts`) -/

/-- `RulesSummary` from `redditClient.ts`: `linkLimit` is `number | null`,
modelled as `Option Int`. -/
structure RulesSummary where
  linksAllowed : Bool
  vendorDisclosureRequired : Bool
  linkLimit : Option Int
  notes : List String
deriving DecidableEq, Repr

/-- An entry of `FullThread.topComments` as built by
`RedditClient.getThread`. -/
structure TopComment where
  author : String
  body : String
  score : Int
  createdUtc : Int
deriving DecidableEq, Repr

/-- `FullThread` from `redditClient.ts` (the richer of the two declarations
in the repository; `schemas/thread.ts` validates a subset of its fields). -/
structure FullThread where
  id : String
  sub : String
  title : String
  author : String
  permalink : String
  createdUtc : Int
  upvotes : Int
  comments : Int
  body : String
  topComments : List TopComment
deriving DecidableEq, Repr

/-- `ThreadAnalysis` from `schemas/thread.ts` as constructed in `scan.ts`;
the agent score is a JS number, modelled as `Rat`. -/
structure ThreadAnalysis where
  thread : FullThread
  score : Rat
  scoreHint : String
  whyFit : String
  rules : RulesSummary
  risks : List String
  variantAText : String
  variantBText : String
  variantBDisclosure : Option String
deriving DecidableEq, Repr

structure ScanParams where
  subs : List String
  keywords : List String
  lookbackHours : Int
  allowlist : List String
deriving DecidableEq, Repr

/-- `SessionData` from `schemas/thread.ts` as built at the end of the scan
route. -/
structure SessionData where
  sessionId : String
  createdAt : Int
  threads : List ThreadAnalysis
  scanParams : ScanParams
deriving DecidableEq, Repr

/-! ### Variant-B processing (`scan.ts` lines 98-113) -/

/-- The default disclosure generated in `scan.ts`:
`I work on ${firstDomain?.split('.')[0] || 'this product'}` where
`firstDomain` is the first allowlist entry (optional chaining yields the
fallback when the allowlist is empty, and the JS `||` replaces an empty
first component). -/
def defaultDisclosure (allowlist : List String) : String :=
  "I work on " ++
    (match allowlist.head? with
     | none => "this product"
     | some d =>
       let c := ((splitOnChar '.' d.data).headD []).asString
       if c = "" then "this product" else c)

/-- The per-candidate variant-B treatment of `scan.ts` lines 99-113:
`enforceOneLink`, then `enforceAllowlist`, then — only when the rules require
vendor disclosure AND the allowlist check reported `ok` AND the cleaned text
contains the substring `http` — a disclosure (the service-provided one if
truthy, otherwise the generated default) is ensured. Returns the final text
and the disclosure stored in the `ThreadAnalysis`. -/
def processVariantB (vbText : String) (vbDisclosure : Option String)
    (rules : RulesSummary) (allowlist : List String) : String × Option String :=
  let one := enforceOneLink vbText
  let allow := enforceAllowlist one.cleaned allowlist
  let cleaned := allow.cleaned
  if rules.vendorDisclosureRequired && allow.ok && containsL cleaned.data "http".data then
    let d := match vbDisclosure with
      | some s => if s = "" then defaultDisclosure allowlist else s
      | none => defaultDisclosure allowlist
    (ensureDisclosure cleaned d, some d)
  else
    (cleaned, vbDisclosure)

/-! ### Session finalization (`scan.ts` lines 150-184) -/

/-- `StorageKeys.session` from `storage.ts`. -/
def sessionKey (sessionId : String) : String := "sessions/" ++ sessionId ++ ".json"

/-- The termination step of the scan route (`scan.ts` lines 150-184): build
the `SessionData` from the accumulated analyses in processing order, write it
once under the session key, and sort a copy of the analyses by descending
score for the HTTP response. The JS `sort((a, b) => b.score - a.score)` is a
stable sort under the total preorder "`a` may precede `b` iff
`b.score ≤ a.score`", modelled by the (stable) insertion sort under the same
relation. Returns the single storage write performed (key and record) and
the response thread list. -/
def scanFinalize (sessionId : String) (createdAt : Int) (analyses : List ThreadAnalysis)
    (params : ScanParams) : (String × SessionData) × List ThreadAnalysis :=
  let sessionData : SessionData := ⟨sessionId, createdAt, analyses, params⟩
  let sorted := analyses.insertionSort (fun a b => b.score ≤ a.score)
  ((sessionKey sessionId, sessionData), sorted)

/-! ### Comment processing in `RedditClient.getThread`
(`redditClient.ts` lines 250-261) -/

/-- A raw top-level comment as delivered by the external API: `body` and
`score` may be missing. -/
structure RawComment where
  author : String
  body : Option String
  score : Option Int
  createdUtc : Int
deriving DecidableEq, Repr

/-- The filter of `getThread`: `comment.data?.body` truthy (a non-empty
string) and not `'[deleted]'` or `'[removed]'`. -/
def validCommentBody : Option String → Bool
  | none => false
  | some s => !(s = "") && !(s = "[deleted]") && !(s = "[removed]")

/-- JS `body.slice(0, 800)`. -/
def truncate800 (s : String) : String := ⟨s.data.take 800⟩

/-- The `topComments` pipeline of `RedditClient.getThread`:
`.slice(0, 10)` (cap first), then the body filter, then mapping to the
truncated record with `score || 0`, then the stable
`sort((a, b) => b.score - a.score)`, modelled as for `scanFinalize`. -/
def processTopComments (cs : List RawComment) : List TopComment :=
  (((cs.take 10).filter (fun c => validCommentBody c.body)).map
    (fun c => ⟨c.author, truncate800 (c.body.getD ""), c.score.getD 0, c.createdUtc⟩)).insertionSort
    (fun a b => b.score ≤ a.score)

instance : IsTotal ThreadAnalysis (fun a b => b.score ≤ a.score) :=
  ⟨fun a b => le_total b.score a.score⟩

instance : IsTrans ThreadAnalysis (fun a b => b.score ≤ a.score) :=
  ⟨fun _ _ _ hab hbc => le_trans hbc hab⟩

instance : IsTotal TopComment (fun a b => b.score ≤ a.score) :=
  ⟨fun a b => le_total b.score a.score⟩

instance : IsTrans TopComment (fun a b => b.score ≤ a.score) :=
  ⟨fun _ _ _ hab hbc => le_trans hbc hab⟩

/-! ### Rules fetching and caching (`redditClient.ts` lines 281-348,
`rulesCache.ts` lines 17-52) -/

/-- Outcome of one `makeRequest` call (success with parsed payload, or a
thrown network/HTTP error). -/
inductive FetchResult (α : Type) where
  | ok (v : α) : FetchResult α
  | err : FetchResult α
deriving DecidableEq, Repr

/-- One entry of the subreddit rules listing; missing `short_name` /
`description` fields are modelled as `""` (the JS code reads
`rule.short_name || ''`). -/
structure RedditRule where
  shortName : String
  description : String
deriving DecidableEq, Repr

/-- The `about.json` fields read by `getSubredditRules`; missing fields are
modelled as `""`. -/
structure SubredditAbout where
  submissionType : String
  publicDescription : String
deriving DecidableEq, Repr

/-- The per-rule step of the keyword scan in `getSubredditRules`. State:
(linksAllowed, vendorDisclosureRequired, linkLimit, notes). -/
def ruleScanStep (st : Bool × Bool × Option Int × List String) (rule : RedditRule) :
    Bool × Bool × Option Int × List String :=
  let ruleText := toLowerL (rule.shortName.data ++ [' '] ++ rule.description.data)
  let (linksAllowed, vendorDisclosureRequired, linkLimit, notes) := st
  let (linksAllowed, notes) :=
    if containsL ruleText "no link".data || containsL ruleText "no url".data ||
        containsL ruleText "no spam".data then
      (false, notes ++ ["No links allowed"])
    else (linksAllowed, notes)
  let (vendorDisclosureRequired, notes) :=
    if containsL ruleText "disclosure".data || containsL ruleText "affiliate".data ||
        containsL ruleText "promotion".data then
      (true, notes ++ ["Vendor disclosure required"])
    else (vendorDisclosureRequired, notes)
  let linkLimit :=
    if containsL ruleText "one link".data || containsL ruleText "single link".data then
      some 1
    else linkLimit
  let notes :=
    if containsL ruleText "friday".data &&
        (containsL ruleText "no promo".data || containsL ruleText "no promotion".data) then
      notes ++ ["No promo Fridays"]
    else notes
  (linksAllowed, vendorDisclosureRequired, linkLimit, notes)

/-- `RedditClient.getSubredditRules`: the two `makeRequest` calls each carry
an inline `.catch` that converts a thrown error into `{ rules: [] }` /
`{ data: {} }`, so a network failure reaches the parsing loop as an empty
listing; the parse starts from the permissive state `linksAllowed = true`,
`vendorDisclosureRequired = false`, `linkLimit = null`. The function's own
outer catch (which would return the conservative defaults) is unreachable
for fetch failures. -/
def getSubredditRules (rulesFetch : FetchResult (List RedditRule))
    (aboutFetch : FetchResult SubredditAbout) : RulesSummary :=
  let rules := match rulesFetch with | .ok rs => rs | .err => []
  let about := match aboutFetch with | .ok a => a | .err => ⟨"", ""⟩
  let (linksAllowed, vendorDisclosureRequired, linkLimit, notes) :=
    rules.foldl ruleScanStep (true, false, none, [])
  let notes := if about.submissionType = "self" then notes ++ ["Text posts only"] else notes
  ⟨linksAllowed, vendorDisclosureRequired, linkLimit, notes⟩

/-- The conservative-default summary that `rulesCache.ts` (and the outer
catch of `getSubredditRules`) would return on a thrown failure. -/
def conservativeDefaults : RulesSummary :=
  ⟨false, true, some 1, ["Failed to fetch rules - using conservative defaults"]⟩

structure CachedRules where
  rules : RulesSummary
  cachedAt : Int
deriving DecidableEq, Repr

def cacheDurationMs : Int := 24 * 60 * 60 * 1000

/-- `RulesCache.getRules`, with the storage cell for the subreddit's cache
key and the clock passed explicitly: a fresh cached entry is returned
verbatim; otherwise `getSubredditRules` is invoked (it never throws, so the
catch branch of `getRules` that would skip caching is dead code for fetch
failures) and its result is written to the cache. Returns the summary and
the new cache-cell contents. -/
def getRules (cached : Option CachedRules) (now : Int)
    (rulesFetch : FetchResult (List RedditRule)) (aboutFetch : FetchResult SubredditAbout) :
    RulesSummary × Option CachedRules :=
  match cached with
  | some c =>
    if now - c.cachedAt < cacheDurationMs then (c.rules, some c)
    else
      let r := getSubredditRules rulesFetch aboutFetch
      (r, some ⟨r, now⟩)
  | none =>
    let r := getSubredditRules rulesFetch aboutFetch
    (r, some ⟨r, now⟩)

/-! ### JSON values and `JSON.parse` (used by
`AgentClient.parseAgentResponse`, `agentClient.ts` lines 132-177) -/

inductive Jsn where
  | null : Jsn
  | bool (b : Bool) : Jsn
  | num (v : Rat) : Jsn
  | str (s : String) : Jsn
  | arr (elems : List Jsn) : Jsn
  | obj (fields : List (String × Jsn)) : Jsn

/-- The whitespace accepted between JSON tokens. -/
def jsSkipWs (l : List Char) : List Char :=
  l.dropWhile (fun c => c == ' ' || c == '\t' || c == '\n' || c == '\r')

def hexVal (c : Char) : Option Nat :=
  if '0' ≤ c && c ≤ '9' then some (c.toNat - 48)
  else if 'a' ≤ c && c ≤ 'f' then some (c.toNat - 87)
  else if 'A' ≤ c && c ≤ 'F' then some (c.toNat - 55)
  else none

/-- Body of a JSON string after the opening quote: handles the escape
sequences of the JSON grammar and rejects raw control characters. Lone
surrogate `\u` escapes (accepted by `JSON.parse`) are approximated by
`Char.ofNat`'s fallback; they do not occur in the inputs considered. -/
def parseStringBody : List Char → Option (List Char × List Char)
  | [] => none
  | '"' :: rest => some ([], rest)
  | '\\' :: e :: rest =>
    match e with
    | '"' => (parseStringBody rest).map (fun (s, r) => ('"' :: s, r))
    | '\\' => (parseStringBody rest).map (fun (s, r) => ('\\' :: s, r))
    | '/' => (parseStringBody rest).map (fun (s, r) => ('/' :: s, r))
    | 'b' => (parseStringBody rest).map (fun (s, r) => ('\x08' :: s, r))
    | 'f' => (parseStringBody rest).map (fun (s, r) => ('\x0c' :: s, r))
    | 'n' => (parseStringBody rest).map (fun (s, r) => ('\n' :: s, r))
    | 'r' => (parseStringBody rest).map (fun (s, r) => ('\r' :: s, r))
    | 't' => (parseStringBody rest).map (fun (s, r) => ('\t' :: s, r))
    | 'u' =>
      match rest with
      | h1 :: h2 :: h3 :: h4 :: r2 =>
        match hexVal h1, hexVal h2, hexVal h3, hexVal h4 with
        | some a, some b, some c, some d =>
          (parseStringBody r2).map
            (fun (s, r) => (Char.ofNat (((a * 16 + b) * 16 + c) * 16 + d) :: s, r))
        | _, _, _, _ => none
      | _ => none
    | _ => none
  | c :: rest =>
    if c.toNat < 0x20 then none
    else (parseStringBody rest).map (fun (s, r) => (c :: s, r))

def digitsToNat (ds : List Char) : Nat :=
  ds.foldl (fun n c => n * 10 + (c.toNat - 48)) 0

/-- A JSON number: optional `-`, integer part (`0` or a nonzero-led digit
run), optional fraction, optional exponent. The value is exact as a
rational. -/
def parseNumber (l : List Char) : Option (Rat × List Char) :=
  let (neg, l1) := match l with | '-' :: t => (true, t) | _ => (false, l)
  match l1 with
  | c :: _ =>
    if !c.isDigit then none
    else
      let intDs := if c == '0' then ['0'] else l1.takeWhile Char.isDigit
      let r1 := l1.drop intDs.length
      let (fracDs, r2) :=
        match r1 with
        | '.' :: t => (t.takeWhile Char.isDigit, t.drop (t.takeWhile Char.isDigit).length)
        | _ => ([], r1)
      if r1 ≠ r2 && fracDs.isEmpty then none
      else
        let parseExp : Option (Int × List Char) :=
          match r2 with
          | 'e' :: t | 'E' :: t =>
            let (esign, t1) := match t with
              | '+' :: u => ((1 : Int), u)
              | '-' :: u => ((-1 : Int), u)
              | _ => ((1 : Int), t)
            let eds := t1.takeWhile Char.isDigit
            if eds.isEmpty then none
            else some (esign * (digitsToNat eds : Int), t1.drop eds.length)
          | _ => some (0, r2)
        match parseExp with
        | none => none
        | some (e, r3) =>
          let mant : Int := (if neg then -1 else 1) * (digitsToNat (intDs ++ fracDs) : Int)
          let exp10 : Int := e - (fracDs.length : Int)
          let v : Rat :=
            if 0 ≤ exp10 then (mant : Rat) * (10 : Rat) ^ exp10.toNat
            else (mant : Rat) / (10 : Rat) ^ (-exp10).toNat
          some (v, r3)
  | [] => none

mutual

/-- Recursive-descent parse of one JSON value (fuel-bounded; the fuel used
by `jsonParse` always suffices). -/
def parseJsnVal : Nat → List Char → Option (Jsn × List Char)
  | 0, _ => none
  | fuel + 1, l =>
    match jsSkipWs l with
    | 'n' :: 'u' :: 'l' :: 'l' :: rest => some (.null, rest)
    | 't' :: 'r' :: 'u' :: 'e' :: rest => some (.bool true, rest)
    | 'f' :: 'a' :: 'l' :: 's' :: 'e' :: rest => some (.bool false, rest)
    | '"' :: rest => (parseStringBody rest).map (fun (s, r) => (.str s.asString, r))
    | '[' :: rest =>
      (match jsSkipWs rest with
       | ']' :: r2 => some (.arr [], r2)
       | l2 => parseArrItems fuel l2 [])
    | '\x7b' :: rest =>
      (match jsSkipWs rest with
       | '\x7d' :: r2 => some (.obj [], r2)
       | l2 => parseObjItems fuel l2 [])
    | l1 => (parseNumber l1).map (fun (v, r) => (.num v, r))

/-- Elements of a non-empty JSON array, after the opening bracket. -/
def parseArrItems : Nat → List Char → List Jsn → Option (Jsn × List Char)
  | 0, _, _ => none
  | fuel + 1, l, acc =>
    match parseJsnVal fuel l with
    | none => none
    | some (v, rest) =>
      match jsSkipWs rest with
      | ',' :: r2 => parseArrItems fuel r2 (acc ++ [v])
      | ']' :: r2 => some (.arr (acc ++ [v]), r2)
      | _ => none

/-- Members of a non-empty JSON object, after the opening brace. -/
def parseObjItems : Nat → List Char → List (String × Jsn) →
    Option (Jsn × List Char)
  | 0, _, _ => none
  | fuel + 1, l, acc =>
    match jsSkipWs l with
    | '"' :: rest =>
      match parseStringBody rest with
      | none => none
      | some (key, r1) =>
        match jsSkipWs r1 with
        | ':' :: r2 =>
          match parseJsnVal fuel r2 with
          | none => none
          | some (v, r3) =>
            match jsSkipWs r3 with
            | ',' :: r4 => parseObjItems fuel r4 (acc ++ [(key.asString, v)])
            | '\x7d' :: r4 => some (.obj (acc ++ [(key.asString, v)]), r4)
            | _ => none
        | _ => none
    | _ => none

end

/-- `JSON.parse`: parse one value and require only whitespace to follow. -/
def jsonParse (s : String) : Option Jsn :=
  match parseJsnVal (2 * s.length + 4) s.data with
  | some (v, rest) => if (jsSkipWs rest).isEmpty then some v else none
  | none => none

/-- JS property access `obj[name]` on a parsed JSON value: `undefined`
(modelled as `none`) unless the value is an object with that member; on
duplicate keys `JSON.parse` keeps the last. -/
def getField (j : Jsn) (name : String) : Option Jsn :=
  match j with
  | .obj fields => (fields.reverse.find? (fun f => f.1 == name)).map (·.2)
  | _ => none

/-- `AgentClient.isValidAgentResponse`: `score` numeric, `whyFit` a string,
`rulesSummary` and `risks` arrays, `variantA?.text` and `variantB?.text`
strings. (When the parsed value is `null`, the JS field access throws and
the enclosing catch takes over — the same outcome as the check failing.) -/
def isValidAgentResponse (j : Jsn) : Bool :=
  (match getField j "score" with | some (.num _) => true | _ => false) &&
  (match getField j "whyFit" with | some (.str _) => true | _ => false) &&
  (match getField j "rulesSummary" with | some (.arr _) => true | _ => false) &&
  (match getField j "risks" with | some (.arr _) => true | _ => false) &&
  (match (getField j "variantA").bind (fun v => getField v "text") with
   | some (.str _) => true | _ => false) &&
  (match (getField j "variantB").bind (fun v => getField v "text") with
   | some (.str _) => true | _ => false)

/-- The decode stage of `parseAgentResponse`: `JSON.parse` on the content,
then the structural validation; any failure yields `none`. There is no
repair stage between the parse and the validation. -/
def decodeAgentContent (content : String) : Option Jsn :=
  match jsonParse content with
  | none => none
  | some j => if isValidAgentResponse j then some j else none

/-! ### The mock response (`agentClient.ts` lines 179-285) -/

structure MockResponse where
  score : Int
  whyFit : String
  rulesSummary : List String
  risks : List String
  variantAText : String
  variantBText : String
  variantBDisclosure : Option String
deriving DecidableEq, Repr

/-- `AgentClient.generateVariantA`. -/
def generateVariantA (thread : FullThread) : String :=
  if containsL thread.title.data "?".data then
    "Here are 3 steps that might help with your question:\n\n1. First, try checking if there are any error messages or logs that could give more specific details about what\x27s happening\n2. Look through the official documentation for any similar examples or troubleshooting guides\n3. Consider creating a minimal test case to isolate the specific part that\x27s not working\n\nLet me know if you need clarification on any of these steps!"
  else
    "I\x27ve run into similar challenges before. Here are some approaches that have worked:\n\n1. Start by documenting exactly what you\x27re trying to achieve and what\x27s currently happening instead\n2. Break down the problem into smaller, testable pieces that you can validate individually  \n3. Check if there are any recent changes or updates that might have affected the behavior\n\nHope this helps point you in the right direction!"

/-- `AgentClient.generateVariantB`. -/
def generateVariantB (thread : FullThread) (linksAllowed : Bool) (allowlist : List String) :
    String × Option String :=
  if !linksAllowed || allowlist.length = 0 then
    (generateVariantA thread, none)
  else
    let domain := allowlist.headD ""
    let text :=
      if containsL thread.title.data "?".data then
        "Here are 3 steps that might help with your question:\n\n1. First, try checking if there are any error messages or logs that could give more specific details\n2. Look through the official documentation for any similar examples\n3. You might also find this resource helpful: https://" ++ domain ++ "/docs - it has some good guides for similar issues\n\nLet me know if you need clarification on any of these steps!"
      else
        "I\x27ve run into similar challenges before. Here are some approaches:\n\n1. Start by documenting exactly what you\x27re trying to achieve\n2. Break down the problem into smaller, testable pieces\n3. This guide might also be useful: https://" ++ domain ++ "/guides - it covers some similar scenarios\n\nHope this helps point you in the right direction!"
    (text, some ("I work on " ++ ((splitOnChar '.' domain.data).headD []).asString))

/-- JS `Math.min` on integers. -/
def jsMin (a b : Int) : Int := if a ≤ b then a else b

/-- JS `Math.max` on integers. -/
def jsMax (a b : Int) : Int := if a ≤ b then b else a

/-- `AgentClient.getMockResponse`: the deterministic fabricated analysis
substituted when no credentials are configured, when the transport fails, or
when decoding fails. -/
def getMockResponse (thread : FullThread) (rules : RulesSummary) (allowlist : List String) :
    MockResponse :=
  let titleWords := (splitOnChar ' ' (toLowerL thread.title.data)).map List.asString
  let hasQuestion := containsL thread.title.data "?".data ||
    titleWords.contains "how" || titleWords.contains "what"
  let hasHelpKeywords :=
    ["help", "problem", "issue", "error", "stuck"].any (fun w => titleWords.contains w)
  let baseScore : Int := 45 + (if hasQuestion then 20 else 0) +
    (if hasHelpKeywords then 15 else 0) + (if thread.upvotes > 5 then 10 else 0) +
    (if thread.comments > 3 then 5 else 0)
  let idCode : Int := match thread.id.data with
    | [] => 0
    | c :: _ => ((c.toNat : Int) % 20)
  let score := jsMin 85 (jsMax 25 (baseScore + idCode - 10))
  let whyFit :=
    if hasQuestion then "User is asking a direct question that our product could help answer"
    else if hasHelpKeywords then "User is experiencing a problem that our product might solve"
    else "Thread shows moderate engagement and relevant topic discussion"
  let rulesSummary :=
    (if !rules.linksAllowed then ["No links allowed"] else []) ++
    (if rules.vendorDisclosureRequired then ["Vendor disclosure required"] else []) ++
    (match rules.linkLimit with
     | some n => if n ≠ 0 then ["Maximum " ++ toString n ++ " link(s)"] else []
     | none => []) ++
    rules.notes
  let risks :=
    (if !rules.linksAllowed then ["Links not permitted in this subreddit"] else []) ++
    (if thread.upvotes < 2 then ["Low engagement thread"] else [])
  let va := generateVariantA thread
  let (vbText, vbDisc) := generateVariantB thread rules.linksAllowed allowlist
  ⟨score, whyFit, rulesSummary, risks, va, vbText, vbDisc⟩

/-- The value produced by `AgentClient.parseAgentResponse`, tagged by which
branch produced it: the service's decoded JSON, or the substituted mock. -/
inductive AgentResult where
  | fromService (data : Jsn) : AgentResult
  | mocked (r : MockResponse) : AgentResult

/-- `AgentClient.parseAgentResponse` (`agentClient.ts` lines 132-166), with
the `data.choices?.[0]?.message?.content` extraction folded into the
`Option String` argument: a missing or empty (falsy) content, a JSON parse
error, or a failed structural validation all fall through to
`getMockResponse`; only a successfully decoded value is returned as the
service's answer. -/
def parseAgentResponse (content : Option String) (thread : FullThread)
    (rules : RulesSummary) (allowlist : List String) : AgentResult :=
  match content with
  | none => .mocked (getMockResponse thread rules allowlist)
  | some c =>
    if c = "" then .mocked (getMockResponse thread rules allowlist)
    else
      match decodeAgentContent c with
      | some j => .fromService j
      | none => .mocked (getMockResponse thread rules allowlist)

/-! ### Concrete fixtures used by several counterexamples -/

/-- A counterexample text for `enforceOneLink`: the second link's text also
occurs inside the first link (URLs may contain further `https://`
substrings, the regex allows `:` and `/` in the body). -/
def twoLinkText : String := "https://a.com/https://b.com https://b.com"

/-- A counterexample text for `enforceAllowlist` and the variant-B
treatment: the rejected link's text also occurs inside an earlier allowed
link, so the violation removal hits the wrong occurrence. -/
def nestedLinkText : String := "https://allowed.com/https://evil.com x https://evil.com"

/-- A syntactically valid scoring-service payload of the required shape. -/
def wellFormedContent : String :=
  "\x7b\"score\":50,\"whyFit\":\"w\",\"rulesSummary\":[\"a\", \"b\"],\"risks\":[],\"variantA\":\x7b\"text\":\"x\"\x7d,\"variantB\":\x7b\"text\":\"y\"\x7d\x7d"

/-- `wellFormedContent` with the comma between the two array string elements
of `rulesSummary` removed: well-formed JSON except for that one missing
comma. -/
def missingCommaContent : String :=
  "\x7b\"score\":50,\"whyFit\":\"w\",\"rulesSummary\":[\"a\" \"b\"],\"risks\":[],\"variantA\":\x7b\"text\":\"x\"\x7d,\"variantB\":\x7b\"text\":\"y\"\x7d\x7d"

/-- A raw response that is not structured data at all. -/
def proseContent : String := "Sorry, I can only reply in prose today."

def exThread : FullThread :=
  ⟨"t3_abc", "webdev", "How do I fix this?", "alice", "/r/webdev/1", 1000, 4, 2, "body", []⟩

def exRules : RulesSummary := ⟨true, true, some 1, ["Be kind"]⟩

def exParams : ScanParams := ⟨["webdev"], ["react"], 24, ["allowed.com"]⟩

def exAnalysis (score : Rat) : ThreadAnalysis :=
  ⟨exThread, score, "hint", "why", exRules, [], "a", "b", none⟩

/-- The violation record produced by one iteration of the
`enforceAllowlist` loop: `none` for an accepted link, the lowercased host
for a rejected one, the raw link text for an unparseable one. -/
def violEntry (allowlist : List String) (link : List Char) : Option String :=
  match hostOfLink link with
  | some domain =>
    if domainAllowed allowlist (stripWww domain) then none else some domain.asString
  | none => some link.asString

/-- The summary `getSubredditRules` produces from an empty rules listing
(which is what a network failure is converted into by the inline
`.catch` handlers). -/
def permissiveSummary : RulesSummary := ⟨true, false, none, []⟩

/-- Eleven raw top-level comments, the first deleted, the remaining ten
valid. -/
def exRawComments : List RawComment :=
  ⟨"u0", some "[deleted]", some 50, 0⟩ ::
    (List.range 10).map (fun i => ⟨"u" ++ toString (i + 1), some ("body " ++ toString (i + 1)),
      some (i : Int), 0⟩)

/-! ### Model validation against the repository's own examples -/

/-- The link-extraction example from the repository's validator tests. -/
theorem extractLinks_testsuite_example :
    extractLinks "Check out https://example.com and http://test.com for more info" =
      ["https://example.com", "http://test.com"] := by decide

/-- The three-link example: the first link is retained, the later ones
removed, whitespace collapsed. -/
theorem enforceOneLink_three_link_example :
    enforceOneLink "See https://a.com and https://b.com and https://c.com" =
      ⟨false, "See https://a.com and and", 3⟩ := by decide

/-- The subdomain example: `sub.allowed.com` is accepted for allowlist entry
`allowed.com`. -/
theorem enforceAllowlist_subdomain_example :
    enforceAllowlist "Visit https://sub.allowed.com" ["allowed.com"] =
      ⟨true, "Visit https://sub.allowed.com", []⟩ := by decide

/-- A disallowed host is removed from the text and recorded. -/
theorem enforceAllowlist_violation_example :
    enforceAllowlist "Visit https://evil.com now" ["allowed.com"] =
      ⟨false, "Visit now", ["evil.com"]⟩ := by decide

/-- `ensureDisclosure` appends after ensuring terminal punctuation, and is a
no-op when the disclosure is already present case-insensitively. -/
theorem ensureDisclosure_examples :
    ensureDisclosure "Take a look" "I work on x" = "Take a look.\n\nI work on x"
    ∧ ensureDisclosure "Already has I WORK ON X inside." "I work on x"
        = "Already has I WORK ON X inside." := by
  refine ⟨by decide, by decide⟩

/-! ### Helper lemmas -/

theorem asString_data (l : List Char) : (List.asString l).data = l := rfl

theorem isPrefixOf_self (l : List Char) : l.isPrefixOf l = true := by
  induction l with
  | nil => rfl
  | cons c rest ih => simp [List.isPrefixOf, ih]

theorem containsL_self (l : List Char) : containsL l l = true := by
  cases l with
  | nil => rfl
  | cons c rest => simp [containsL, isPrefixOf_self]

theorem containsL_append_right (a b : List Char) : containsL (a ++ b) b = true := by
  induction a with
  | nil => exact containsL_self b
  | cons c rest ih => simp [containsL, ih]

/-- `ensureDisclosure` really ensures the disclosure: the result contains it
case-insensitively. -/
theorem ensureDisclosure_contains (t d : String) :
    containsL (toLowerL (ensureDisclosure t d).data) (toLowerL d.data) = true := by
  unfold ensureDisclosure
  by_cases h : containsL (toLowerL t.data) (toLowerL d.data) = true
  · simp [h]
  · simp only [h, Bool.false_eq_true, if_false, if_neg]
    simp only [asString_data, toLowerL, List.map_append]
    rw [← List.map_append, ← List.map_append]
    exact containsL_append_right _ _

/-! ### Claim C3 -/

/-- **C3, counterexample.** On `twoLinkText` the cleaned output of
`enforceOneLink` still contains two link-looking substrings, and neither of
them is the link that appeared first in the input (the removal of the second
link's first occurrence destroyed the first link instead). -/
theorem enforceOneLink_two_links_remain :
    (enforceOneLink twoLinkText).cleaned = "https://a.com/ https://b.com"
    ∧ extractLinks (enforceOneLink twoLinkText).cleaned = ["https://a.com/", "https://b.com"]
    ∧ (extractLinks twoLinkText).head? = some "https://a.com/https://b.com"
    ∧ ¬ "https://a.com/https://b.com" ∈ extractLinks (enforceOneLink twoLinkText).cleaned := by
  refine ⟨by decide, by decide, by decide, by decide⟩

/-- **C3, amended.** When the input contains at most one link,
`enforceOneLink` returns the input unchanged with `ok = true`; in general
`count` is the number of extracted links and `ok` holds exactly when that
number is at most one. (The original at-most-one-link and first-link
guarantees about `cleaned` fail, see the counterexample.) -/
theorem enforceOneLink_le_one_id (text : String) :
    ((extractLinks text).length ≤ 1 →
      enforceOneLink text = ⟨true, text, (extractLinks text).length⟩)
    ∧ (enforceOneLink text).count = (extractLinks text).length
    ∧ ((enforceOneLink text).ok = true ↔ (extractLinks text).length ≤ 1) := by
  have hlen : (extractLinks text).length = (extractLinksL text.data).length := by
    simp [extractLinks]
  unfold enforceOneLink
  by_cases h : (extractLinksL text.data).length ≤ 1
  · simp [h, hlen]
  · simp [h, hlen]

/-- **C3, witness** for `enforceOneLink_le_one_id`. -/
theorem enforceOneLink_le_one_id_witness :
    enforceOneLink "see https://a.com today" = ⟨true, "see https://a.com today", 1⟩ :=
  (enforceOneLink_le_one_id "see https://a.com today").1 (by decide)

/-! ### Claim C8 -/

/-- **C8, counterexample.** `enforceOneLink` is not idempotent: on
`twoLinkText` a second application changes the text again. -/
theorem enforceOneLink_not_idempotent :
    (enforceOneLink (enforceOneLink twoLinkText).cleaned).cleaned = "https://a.com/"
    ∧ (enforceOneLink twoLinkText).cleaned = "https://a.com/ https://b.com"
    ∧ (enforceOneLink (enforceOneLink twoLinkText).cleaned).cleaned
        ≠ (enforceOneLink twoLinkText).cleaned := by
  refine ⟨by decide, by decide, by decide⟩

/-- **C8, amended.** `enforceOneLink` is idempotent on every input that
contains at most one link (where it is the identity); the unrestricted
idempotence claim fails, see the counterexample. -/
theorem enforceOneLink_idempotent_le_one (text : String)
    (h : (extractLinks text).length ≤ 1) :
    enforceOneLink ((enforceOneLink text).cleaned) = enforceOneLink text := by
  have h1 := (enforceOneLink_le_one_id text).1 h
  rw [h1]
  exact h1

/-- **C8, witness** for `enforceOneLink_idempotent_le_one`. -/
theorem enforceOneLink_idempotent_le_one_witness :
    enforceOneLink ((enforceOneLink "see https://a.com today").cleaned) =
      enforceOneLink "see https://a.com today" :=
  enforceOneLink_idempotent_le_one "see https://a.com today" (by decide)

/-! ### Fold lemmas for the `enforceAllowlist` loop -/

theorem allowStep_of_violEntry_none (al : List String) (st : List Char × List String)
    (link : List Char) (h : violEntry al link = none) : allowStep al st link = st := by
  unfold violEntry at h
  unfold allowStep
  cases hh : hostOfLink link with
  | none => rw [hh] at h; exact absurd h (by simp)
  | some domain =>
    rw [hh] at h
    by_cases ha : domainAllowed al (stripWww domain) = true
    · simp [ha]
    · simp [ha] at h

theorem allowStep_of_violEntry_some (al : List String) (st : List Char × List String)
    (link : List Char) (s : String) (h : violEntry al link = some s) :
    allowStep al st link = (replaceFirstL st.1 link, st.2 ++ [s]) := by
  unfold violEntry at h
  unfold allowStep
  cases hh : hostOfLink link with
  | none => rw [hh] at h; simp at h; rw [h]
  | some domain =>
    rw [hh] at h
    by_cases ha : domainAllowed al (stripWww domain) = true
    · simp [ha] at h
    · simp [ha] at h ⊢
      rw [h]

theorem allowFold_snd (al : List String) (links : List (List Char)) :
    ∀ (t : List Char) (vs : List String),
      (links.foldl (allowStep al) (t, vs)).2 = vs ++ links.filterMap (violEntry al) := by
  induction links with
  | nil => intro t vs; simp
  | cons l rest ih =>
    intro t vs
    simp only [List.foldl_cons, List.filterMap_cons]
    cases h : violEntry al l with
    | none =>
      rw [allowStep_of_violEntry_none al (t, vs) l h]
      exact ih t vs
    | some s =>
      rw [allowStep_of_violEntry_some al (t, vs) l s h, ih]
      simp

theorem allowFold_id (al : List String) (links : List (List Char)) :
    ∀ (t : List Char) (vs : List String), (∀ l ∈ links, violEntry al l = none) →
      links.foldl (allowStep al) (t, vs) = (t, vs) := by
  induction links with
  | nil => intro t vs _; rfl
  | cons l rest ih =>
    intro t vs h
    rw [List.foldl_cons, allowStep_of_violEntry_none al (t, vs) l (h l (by simp))]
    exact ih t vs (fun x hx => h x (by simp [hx]))

/-! ### Claim C4 -/

/-- **C4, counterexample.** On `nestedLinkText` with allowlist
`["allowed.com"]` the cleaned output still contains the rejected link
`https://evil.com` (its removal deleted the equal substring inside the
earlier, allowed link instead), so not every remaining link has an
allowlisted host. -/
theorem enforceAllowlist_disallowed_link_remains :
    enforceAllowlist nestedLinkText ["allowed.com"] =
      ⟨false, "https://allowed.com/ x https://evil.com", ["evil.com"]⟩
    ∧ extractLinks "https://allowed.com/ x https://evil.com"
        = ["https://allowed.com/", "https://evil.com"]
    ∧ violEntry ["allowed.com"] "https://evil.com".data = some "evil.com" := by
  refine ⟨by decide, by decide, by decide⟩

/-- **C4, amended.** For a non-empty allowlist, `violations` records, in
extraction order, exactly the lowercased host of every rejected link and the
raw text of every unparseable link, and `ok` holds exactly when `violations`
is empty. (The further guarantee that every link remaining in `cleaned` has
an allowlisted host fails, see the counterexample: the removal deletes the
first occurrence of the rejected link's text, which can lie inside another
link.) -/
theorem enforceAllowlist_violations_spec (text : String) (allowlist : List String)
    (h : allowlist ≠ []) :
    (enforceAllowlist text allowlist).violations
        = (extractLinksL text.data).filterMap (violEntry allowlist)
    ∧ ((enforceAllowlist text allowlist).ok = true
        ↔ (enforceAllowlist text allowlist).violations = []) := by
  have hlen : ¬ allowlist.length = 0 := by
    simpa [List.length_eq_zero] using h
  unfold enforceAllowlist
  simp only [hlen, if_false]
  refine ⟨?_, ?_⟩
  · exact allowFold_snd allowlist (extractLinksL text.data) text.data []
  · simp [List.length_eq_zero]

/-- **C4, witness** for `enforceAllowlist_violations_spec`. -/
theorem enforceAllowlist_violations_spec_witness :
    (enforceAllowlist "go https://evil.com or https://sub.allowed.com" ["allowed.com"]).violations
        = (extractLinksL "go https://evil.com or https://sub.allowed.com".data).filterMap
            (violEntry ["allowed.com"])
    ∧ ((enforceAllowlist "go https://evil.com or https://sub.allowed.com" ["allowed.com"]).ok = true
        ↔ (enforceAllowlist "go https://evil.com or https://sub.allowed.com"
            ["allowed.com"]).violations = []) :=
  enforceAllowlist_violations_spec "go https://evil.com or https://sub.allowed.com"
    ["allowed.com"] (by decide)

/-! ### Claim C9 -/

/-- **C9.** For a non-empty allowlist, `enforceAllowlist` collapses
whitespace runs and trims even when no link was removed: with no violations
the cleaned text is exactly the whitespace-normalized input; consequently
`ok = true` does not imply that `cleaned` equals the input, witnessed by
`"a  b"`. -/
theorem enforceAllowlist_normalizes_without_violations (text : String) (allowlist : List String) :
    (allowlist ≠ [] → (enforceAllowlist text allowlist).violations = [] →
      (enforceAllowlist text allowlist).cleaned = (trimL (collapseWsL text.data)).asString)
    ∧ ((enforceAllowlist "a  b" ["x.com"]).ok = true
        ∧ (enforceAllowlist "a  b" ["x.com"]).cleaned ≠ "a  b") := by
  refine ⟨fun h hv => ?_, by decide, by decide⟩
  have hlen : ¬ allowlist.length = 0 := by
    simpa [List.length_eq_zero] using h
  have hspec := (enforceAllowlist_violations_spec text allowlist h).1
  rw [hv] at hspec
  have hall : ∀ l ∈ extractLinksL text.data, violEntry allowlist l = none := by
    exact List.filterMap_eq_nil_iff.mp hspec.symm
  unfold enforceAllowlist at *
  simp only [hlen, if_false] at *
  rw [allowFold_id allowlist (extractLinksL text.data) text.data [] hall]

/-- **C9, witness** for `enforceAllowlist_normalizes_without_violations`. -/
theorem enforceAllowlist_normalizes_without_violations_witness :
    (enforceAllowlist "a  b" ["x.com"]).cleaned = (trimL (collapseWsL "a  b".data)).asString :=
  (enforceAllowlist_normalizes_without_violations "a  b" ["x.com"]).1 (by decide) (by decide)

/-! ### Claim C2 -/

theorem defaultDisclosure_ne_empty (allowlist : List String) :
    defaultDisclosure allowlist ≠ "" := by
  intro h
  have hl := congrArg String.length h
  unfold defaultDisclosure at hl
  rw [String.length_append] at hl
  have h10 : ("I work on " : String).length = 10 := rfl
  have h0 : ("" : String).length = 0 := rfl
  rw [h10, h0] at hl
  omega

/-- **C2, counterexample.** With `vendorDisclosureRequired = true` and
allowlist `["allowed.com"]`, the variant-B text `nestedLinkText` comes out
of the validators still containing a link, yet no disclosure is ensured: the
code additionally requires the allowlist check to have reported `ok`, which
fails here because a violation was recorded (even though its removal left an
allowed link in the text). -/
theorem processVariantB_no_disclosure_with_link :
    processVariantB nestedLinkText none ⟨false, true, some 1, []⟩ ["allowed.com"]
        = ("https://allowed.com/ x", none)
    ∧ extractLinks "https://allowed.com/ x" = ["https://allowed.com/"]
    ∧ containsL (toLowerL "https://allowed.com/ x".data)
        (toLowerL (defaultDisclosure ["allowed.com"]).data) = false := by
  refine ⟨by decide, by decide, by decide⟩

/-- **C2, amended.** For every successfully decoded candidate whose rules
have `vendorDisclosureRequired = true`, whose Variant B text after
`enforceOneLink` and `enforceAllowlist` passed the allowlist check with
`ok = true` **and** still contains `http`, the final Variant B text has a
disclosure ensured: the stored disclosure is the service-provided one when
present (and non-empty), otherwise the non-empty default derived from the
first allowlist domain, and the final text contains it
(case-insensitively). -/
theorem processVariantB_disclosure_ensured (vbText : String) (vbDisclosure : Option String)
    (rules : RulesSummary) (allowlist : List String)
    (hreq : rules.vendorDisclosureRequired = true)
    (hok : (enforceAllowlist (enforceOneLink vbText).cleaned allowlist).ok = true)
    (hhttp : containsL (enforceAllowlist (enforceOneLink vbText).cleaned allowlist).cleaned.data
        "http".data = true) :
    ∃ d, (processVariantB vbText vbDisclosure rules allowlist).2 = some d
      ∧ d ≠ ""
      ∧ containsL (toLowerL (processVariantB vbText vbDisclosure rules allowlist).1.data)
          (toLowerL d.data) = true
      ∧ (vbDisclosure = none → d = defaultDisclosure allowlist)
      ∧ (∀ s, vbDisclosure = some s → s ≠ "" → d = s) := by
  unfold processVariantB
  simp only [hreq, hok, hhttp, Bool.and_self, Bool.true_and, if_true]
  cases vbDisclosure with
  | none =>
    exact ⟨defaultDisclosure allowlist, rfl, defaultDisclosure_ne_empty allowlist,
      ensureDisclosure_contains _ _, fun _ => rfl, fun s hs => by simp at hs⟩
  | some s =>
    by_cases hs : s = ""
    · simp only [hs, if_true, if_pos rfl]
      refine ⟨defaultDisclosure allowlist, rfl, defaultDisclosure_ne_empty allowlist,
        ensureDisclosure_contains _ _, fun hn => by simp at hn, fun s' hs' hne => ?_⟩
      have h2 : "" = s' := by simpa using hs'
      exact absurd h2.symm hne
    · simp only [hs, if_false, if_neg hs]
      exact ⟨s, rfl, hs, ensureDisclosure_contains _ _, fun hn => by simp at hn,
        fun s' hs' _ => by simpa using hs'⟩

/-- **C2, witness** for `processVariantB_disclosure_ensured`. -/
theorem processVariantB_disclosure_ensured_witness :
    ∃ d, (processVariantB "Check https://allowed.com/docs now" none
        ⟨true, true, some 1, []⟩ ["allowed.com"]).2 = some d
      ∧ d ≠ ""
      ∧ containsL (toLowerL (processVariantB "Check https://allowed.com/docs now" none
          ⟨true, true, some 1, []⟩ ["allowed.com"]).1.data) (toLowerL d.data) = true
      ∧ ((none : Option String) = none → d = defaultDisclosure ["allowed.com"])
      ∧ (∀ s, (none : Option String) = some s → s ≠ "" → d = s) :=
  processVariantB_disclosure_ensured "Check https://allowed.com/docs now" none
    ⟨true, true, some 1, []⟩ ["allowed.com"] rfl (by decide) (by decide)

/-! ### Claim C1 -/

/-- **C1, counterexample.** When the raw content is not parseable,
`parseAgentResponse` does not fail the candidate: it substitutes the
deterministic fabricated `getMockResponse` analysis (here with score 71 and
an invented rationale) for the service's answer. -/
theorem parseAgentResponse_substitutes_mock :
    decodeAgentContent proseContent = none
    ∧ parseAgentResponse (some proseContent) exThread exRules ["allowed.com"]
        = .mocked (getMockResponse exThread exRules ["allowed.com"])
    ∧ (getMockResponse exThread exRules ["allowed.com"]).score = 71
    ∧ (getMockResponse exThread exRules ["allowed.com"]).whyFit
        = "User is asking a direct question that our product could help answer" :=
  ⟨rfl, rfl, by decide, by decide⟩

/-- **C1, amended.** When decoding fails (all decode stages fail, a required
field is missing, or a field has the wrong type — i.e.
`decodeAgentContent` yields `none`) or the content is missing,
`parseAgentResponse` substitutes the fabricated mock analysis for the
service's answer; the candidate is *not* treated as failed. -/
theorem parseAgentResponse_mock_on_decode_failure (content : String) (thread : FullThread)
    (rules : RulesSummary) (allowlist : List String)
    (h : decodeAgentContent content = none) :
    parseAgentResponse (some content) thread rules allowlist
        = .mocked (getMockResponse thread rules allowlist)
    ∧ parseAgentResponse none thread rules allowlist
        = .mocked (getMockResponse thread rules allowlist) := by
  unfold parseAgentResponse
  refine ⟨?_, rfl⟩
  by_cases hc : content = ""
  · simp [hc]
  · simp [hc, h]

/-- **C1, witness** for `parseAgentResponse_mock_on_decode_failure`. -/
theorem parseAgentResponse_mock_on_decode_failure_witness :
    parseAgentResponse (some proseContent) exThread exRules ["allowed.com"]
        = .mocked (getMockResponse exThread exRules ["allowed.com"])
    ∧ parseAgentResponse none exThread exRules ["allowed.com"]
        = .mocked (getMockResponse exThread exRules ["allowed.com"]) :=
  parseAgentResponse_mock_on_decode_failure proseContent exThread exRules ["allowed.com"] rfl

/-! ### Claim C7 -/

/-- **C7, counterexample.** A response that is well-formed JSON except for a
missing comma between two adjacent array string elements does **not** decode
successfully: the decoder has no stage-2 repair pass, `JSON.parse` rejects
the text, and the mock analysis is substituted. (The comma-inserted variant
of the same text decodes fine, so the input really is otherwise
well-formed.) -/
theorem missingComma_decode_fails :
    jsonParse missingCommaContent = none
    ∧ decodeAgentContent missingCommaContent = none
    ∧ parseAgentResponse (some missingCommaContent) exThread exRules ["allowed.com"]
        = .mocked (getMockResponse exThread exRules ["allowed.com"])
    ∧ (decodeAgentContent wellFormedContent).isSome = true :=
  ⟨rfl, rfl, rfl, rfl⟩

/-- **C7, amended.** Decoding has a single syntactic stage: any raw content
that strict `JSON.parse` rejects (in particular a response with a missing
comma between two adjacent array string elements) fails to decode, and
`parseAgentResponse` then substitutes the mock response instead of the typed
analysis record. -/
theorem decode_requires_strict_json (content : String) (thread : FullThread)
    (rules : RulesSummary) (allowlist : List String)
    (h : jsonParse content = none) :
    decodeAgentContent content = none
    ∧ parseAgentResponse (some content) thread rules allowlist
        = .mocked (getMockResponse thread rules allowlist) := by
  have hd : decodeAgentContent content = none := by
    unfold decodeAgentContent
    rw [h]
  refine ⟨hd, ?_⟩
  unfold parseAgentResponse
  by_cases hc : content = ""
  · simp [hc]
  · simp [hc, hd]

/-- **C7, witness** for `decode_requires_strict_json`. -/
theorem decode_requires_strict_json_witness :
    decodeAgentContent missingCommaContent = none
    ∧ parseAgentResponse (some missingCommaContent) exThread exRules ["allowed.com"]
        = .mocked (getMockResponse exThread exRules ["allowed.com"]) :=
  decode_requires_strict_json missingCommaContent exThread exRules ["allowed.com"] rfl

/-! ### Claim C5 -/

/-- **C5.** Contrary to the claim, a rules-fetch failure is both mis-reported
and cached: the inline `.catch` handlers inside `getSubredditRules` convert
a thrown fetch error into an empty rules listing, so `getRules` receives the
*permissive* summary (`linksAllowed = true`, `vendorDisclosureRequired =
false`, `linkLimit = null`) — not the conservative defaults — treats it as a
success and writes it to the cache; a subsequent call within 24h (here with
a now-successful fetch that would report links banned) is served the stale
permissive summary from the cache instead of retrying. -/
theorem getRules_caches_fetch_failure :
    getRules none 0 .err .err = (permissiveSummary, some ⟨permissiveSummary, 0⟩)
    ∧ permissiveSummary ≠ conservativeDefaults
    ∧ getRules (some ⟨permissiveSummary, 0⟩) 1000
        (.ok [⟨"No links or URLs", "links are banned"⟩]) (.ok ⟨"", ""⟩)
        = (permissiveSummary, some ⟨permissiveSummary, 0⟩)
    ∧ (getSubredditRules (.ok [⟨"No links or URLs", "links are banned"⟩])
        (.ok ⟨"", ""⟩)).linksAllowed = false := by
  refine ⟨by decide, by decide, by decide, by decide⟩

/-! ### Claim C6 -/

/-- **C6, counterexample.** The persisted `SessionData` holds the
accumulated analyses in processing order, not sorted by descending score: on
scores `[10, 90]` the persisted list is `[10, 90]` (unsorted) while only the
HTTP response, built after the write, is `[90, 10]`. -/
theorem persisted_record_not_sorted :
    ((scanFinalize "s1" 0 [exAnalysis 10, exAnalysis 90] exParams).1.2.threads.map
        (fun a => a.score) = [10, 90])
    ∧ ¬ List.Pairwise (fun a b : ThreadAnalysis => b.score ≤ a.score)
        (scanFinalize "s1" 0 [exAnalysis 10, exAnalysis 90] exParams).1.2.threads
    ∧ ((scanFinalize "s1" 0 [exAnalysis 10, exAnalysis 90] exParams).2.map
        (fun a => a.score) = [90, 10]) := by
  refine ⟨rfl, ?_, by decide⟩
  intro h
  have h1 := (List.pairwise_cons.mp h).1 (exAnalysis 90) (List.mem_cons_self _ _)
  have h2 : (90 : Rat) ≤ 10 := h1
  norm_num at h2

/-- **C6, amended.** At scan termination exactly one `SessionData` record is
persisted, under the session's storage key; it contains the accumulated
analyses in processing order (not sorted). The analyses sorted by descending
score appear only in the HTTP response list, which is a permutation of the
accumulated analyses ordered by non-increasing score. -/
theorem scanFinalize_spec (sessionId : String) (createdAt : Int)
    (analyses : List ThreadAnalysis) (params : ScanParams) :
    (scanFinalize sessionId createdAt analyses params).1.1 = sessionKey sessionId
    ∧ (scanFinalize sessionId createdAt analyses params).1.2
        = ⟨sessionId, createdAt, analyses, params⟩
    ∧ List.Pairwise (fun a b : ThreadAnalysis => b.score ≤ a.score)
        (scanFinalize sessionId createdAt analyses params).2
    ∧ (scanFinalize sessionId createdAt analyses params).2.Perm analyses := by
  refine ⟨rfl, rfl, ?_, ?_⟩
  · exact List.sorted_insertionSort (fun a b : ThreadAnalysis => b.score ≤ a.score) analyses
  · exact List.perm_insertionSort (fun a b : ThreadAnalysis => b.score ≤ a.score) analyses

/-! ### Claim C10 -/

theorem stringExt (s t : String) (h : s.data = t.data) : s = t := by
  cases s
  cases t
  exact congrArg String.mk h

theorem truncate800_length (s : String) : (truncate800 s).length ≤ 800 := by
  show (s.data.take 800).length ≤ 800
  rw [List.length_take]
  exact min_le_left _ _

/-- Truncation to 800 characters cannot produce a string shorter than 800
characters other than the original. -/
theorem truncate800_eq_short (s t : String) (ht : t.data.length < 800)
    (h : truncate800 s = t) : s = t := by
  have hdata : s.data.take 800 = t.data := congrArg String.data h
  by_cases hlen : s.data.length ≤ 800
  · exact stringExt s t ((List.take_of_length_le hlen) ▸ hdata)
  · exfalso
    have h800 : (s.data.take 800).length = 800 := by
      rw [List.length_take]
      omega
    rw [hdata] at h800
    omega

/-- **C10.** Every `topComments` list produced by the `getThread` pipeline
has at most 10 entries; every entry's body is non-empty, is not
`"[deleted]"` or `"[removed]"`, and has at most 800 characters; the entries
are ordered by non-increasing score. The 10-entry cap is applied *before*
the validity filter, so the list can hold fewer than 10 entries even when
ten valid comments exist, witnessed by `exRawComments`. -/
theorem processTopComments_spec (cs : List RawComment) :
    (processTopComments cs).length ≤ 10
    ∧ (∀ c ∈ processTopComments cs,
        c.body ≠ "" ∧ c.body ≠ "[deleted]" ∧ c.body ≠ "[removed]" ∧ c.body.length ≤ 800)
    ∧ List.Pairwise (fun a b : TopComment => b.score ≤ a.score) (processTopComments cs)
    ∧ ((processTopComments exRawComments).length = 9
        ∧ (exRawComments.filter (fun c => validCommentBody c.body)).length = 10) := by
  have hperm := List.perm_insertionSort (fun a b : TopComment => b.score ≤ a.score)
    (((cs.take 10).filter (fun c => validCommentBody c.body)).map
      (fun c => ⟨c.author, truncate800 (c.body.getD ""), c.score.getD 0, c.createdUtc⟩))
  refine ⟨?_, ?_, ?_, by decide, by decide⟩
  · show (processTopComments cs).length ≤ 10
    unfold processTopComments
    rw [hperm.length_eq, List.length_map]
    calc ((cs.take 10).filter (fun c => validCommentBody c.body)).length
        ≤ (cs.take 10).length := List.length_filter_le _ _
      _ ≤ 10 := List.length_take_le _ _
  · intro c hc
    have hmem : c ∈ ((cs.take 10).filter (fun c => validCommentBody c.body)).map
        (fun c => ⟨c.author, truncate800 (c.body.getD ""), c.score.getD 0, c.createdUtc⟩) :=
      hperm.mem_iff.mp hc
    obtain ⟨r, hr, hceq⟩ := List.mem_map.mp hmem
    have hval : validCommentBody r.body = true := (List.mem_filter.mp hr).2
    cases hb : r.body with
    | none => rw [hb] at hval; exact absurd hval (by simp [validCommentBody])
    | some s =>
      rw [hb] at hval
      have hs : (¬ s = "" ∧ ¬ s = "[deleted]") ∧ ¬ s = "[removed]" := by
        simpa [validCommentBody] using hval
      have hbody : c.body = truncate800 s := by
        rw [← hceq, hb]
        rfl
      refine ⟨?_, ?_, ?_, ?_⟩
      · rw [hbody]
        intro h
        exact hs.1.1 (truncate800_eq_short s "" (by decide) h)
      · rw [hbody]
        intro h
        exact hs.1.2 (truncate800_eq_short s "[deleted]" (by decide) h)
      · rw [hbody]
        intro h
        exact hs.2 (truncate800_eq_short s "[removed]" (by decide) h)
      · rw [hbody]
        exact truncate800_length s
  · exact List.sorted_insertionSort (fun a b : TopComment => b.score ≤ a.score) _

/-- **C10, witness** for `processTopComments_spec`. -/
theorem processTopComments_spec_witness :
    (processTopComments exRawComments).length ≤ 10
    ∧ ((⟨"u1", "body 1", 0, 0⟩ : TopComment) ∈ processTopComments exRawComments →
        ("body 1" : String) ≠ "" ∧ ("body 1" : String) ≠ "[deleted]"
          ∧ ("body 1" : String) ≠ "[removed]" ∧ ("body 1" : String).length ≤ 800) :=
  ⟨(processTopComments_spec exRawComments).1,
    fun hm => (processTopComments_spec exRawComments).2.1 ⟨"u1", "body 1", 0, 0⟩ hm⟩

end ThreadScout
